import Mathlib

/-!
Verification of the path-triggered unit activation subsystem and of the
recovery-key formatter.

The sources at hand are the reference test of the path state machine
(src/test/test-path.c) and the recovery-key generator
(src/home/homectl-recovery-key.c).  The core state machine itself
(systemd's src/core/path.c) is not among the sources, so it is modelled
from the specification (spec.md §4.3-§4.5); the test file fixes the
concrete scenarios the theorems replay.
-/

set_option maxRecDepth 4000

/-- The five condition kinds of a watch specification (spec §3, `WatchSpec.kind`;
exercised by test-path.c as PathExists/PathExistsGlob/PathChanged/PathModified/
DirectoryNotEmpty). -/
inductive PathType
  | pathExists
  | pathExistsGlob
  | pathChanged
  | pathModified
  | directoryNotEmpty
deriving DecidableEq

/-- Modelled from the spec: Exists, ExistsGlob and DirectoryNotEmpty are
level-triggered; Changed and Modified are edge-triggered (spec §4.4, §8). -/
def path_type_is_level_triggered : PathType → Bool
  | PathType.pathExists => true
  | PathType.pathExistsGlob => true
  | PathType.directoryNotEmpty => true
  | PathType.pathChanged => false
  | PathType.pathModified => false

/-- One monitored condition: kind plus watched path (spec §3, WatchSpec). -/
structure WatchSpec where
  kind : PathType
  path : String
deriving DecidableEq

/-- True exactly on directory-kind specifications (used by the MakeDirectory=
handling, spec §4.4 transition 1). -/
def spec_is_dir (w : WatchSpec) : Bool :=
  match w.kind with
  | PathType.directoryNotEmpty => true
  | _ => false

/-- Configuration of one PathUnit as the loader produces it (spec §3 PathUnit,
§6 configuration keys; the concrete instances below mirror the unit files the
test loads). -/
structure PathConfig where
  name : String
  specs : List WatchSpec
  unitOverride : Option String
  makeDirectory : Bool
  directoryMode : Nat

/-- Snapshot of the filesystem facts one condition evaluation may consult:
whether the exact path exists, whether the glob matches anything, whether the
directory is non-empty, and the current modification timestamp. -/
structure FsObs where
  present : Bool
  globNonEmpty : Bool
  dirNonEmpty : Bool
  mtime : Nat
deriving DecidableEq

/-- Modelled from the spec: the per-spec retained state the Modified evaluator
keeps across calls — an (existed, mtime) pair owned by the PathUnit
(spec §4.3, Modified). -/
structure SpecMem where
  existed : Bool
  mtime : Nat
deriving DecidableEq

/-- Initial per-spec retained state: nothing seen yet. -/
def initial_spec_mem : SpecMem := { existed := false, mtime := 0 }

/-- Modelled from the spec: the Condition Evaluator (spec §4.3; src/core/path.c
is absent from the sources).  Given a spec kind, a filesystem observation and
the retained per-spec state, returns (satisfied, new retained state).
- Exists: stat succeeds on the exact path.
- ExistsGlob: the glob result set is non-empty.
- Changed: reports current truth (the path exists now); the edge is enforced
  by the state machine.
- Modified: satisfied iff the path exists and (it did not exist before, or its
  modification time advanced since the last satisfied evaluation).
- DirectoryNotEmpty: the directory has at least one real entry. -/
def path_spec_check (t : PathType) (o : FsObs) (m : SpecMem) : Bool × SpecMem :=
  match t with
  | PathType.pathExists => (o.present, m)
  | PathType.pathExistsGlob => (o.globNonEmpty, m)
  | PathType.pathChanged => (o.present, m)
  | PathType.directoryNotEmpty => (o.dirNonEmpty, m)
  | PathType.pathModified =>
      if o.present && (!m.existed || decide (m.mtime < o.mtime)) then
        (true, { existed := true, mtime := o.mtime })
      else
        (false, { existed := o.present, mtime := m.mtime })

/-- Evaluate every spec of the unit against a list of per-spec observations,
threading the retained Modified state (spec §4.4 transitions 1 and 4
re-evaluate all specs at once). -/
def eval_all : List WatchSpec → List FsObs → List SpecMem → List Bool × List SpecMem
  | w :: ws, o :: os, m :: ms =>
      let r := path_spec_check w.kind o m
      let rest := eval_all ws os ms
      (r.1 :: rest.1, r.2 :: rest.2)
  | _, _, _ => ([], [])

/-- The four externally visible path states (spec §4.4). -/
inductive PathState
  | dead
  | waiting
  | running
  | failed
deriving DecidableEq

/-- The path result shape (spec §3: sticky, reset on the next start attempt). -/
inductive PathResult
  | success
  | failureResources
  | failureStart
deriving DecidableEq

/-- Abstract state of the target service as the Activation Trigger reports it. -/
inductive ServiceState
  | dead
  | running
deriving DecidableEq

/-- Abstract result of the target service. -/
inductive ServiceResult
  | success
  | failure
deriving DecidableEq

/-- Modelled from the spec: default target derivation — strip the PathUnit's
own `.path` type suffix and append the `.service` suffix (spec §3
targetUnitRef, §4.1; the deriving code of the unit engine is absent from the
sources, while test-path.c's service_for_path checks it via strreplace). -/
def derive_target_name (name : String) : String :=
  String.dropRight name 5 ++ ".service"

/-- The unit the Activation Trigger is asked to start: the explicit Unit=
override when configured, else the name derived from the PathUnit's own name. -/
def target_unit (cfg : PathConfig) : String :=
  match cfg.unitOverride with
  | some u => u
  | none => derive_target_name cfg.name

/-- Whole-system state the theorems speak about: the path unit's state and
sticky result, the target service's state and result, the per-spec
edge latches (previous evaluation) and Modified memories, the log of start
requests issued to the Activation Trigger, and the mode of the directory the
unit itself created (none while absent). -/
structure SysState where
  pstate : PathState
  presult : PathResult
  svc : ServiceState
  sresult : ServiceResult
  prevSat : List Bool
  mem : List SpecMem
  started : List String
  dir : Option Nat

/-- Events consumed by the state machine.  The booleans are the environment's
answers: armOk is the Kernel Watch Registry succeeding, accepted is the
Activation Trigger accepting a start request (spec §4.4, §4.5, §7). -/
inductive PathEvent
  | start (obs : List FsObs) (armOk : Bool) (accepted : Bool)
  | fsEvent (i : Nat) (o : FsObs) (accepted : Bool)
  | targetStopped (obs : List FsObs) (svcRes : ServiceResult) (accepted : Bool)
  | stopRequest

/-- Initial system state of a freshly loaded unit: Dead, success results,
cleared latches and memories, no starts issued, watched directory absent
(the test removes it in setup_test). -/
def path_init (cfg : PathConfig) : SysState :=
  { pstate := PathState.dead, presult := PathResult.success,
    svc := ServiceState.dead, sresult := ServiceResult.success,
    prevSat := cfg.specs.map (fun _ => false),
    mem := cfg.specs.map (fun _ => initial_spec_mem),
    started := [], dir := none }

/-- Modelled from the spec: the Path Activation State Machine's transition
function (spec §4.4 transitions 1-5 and §4.5; src/core/path.c is absent from
the sources).
- start: from Dead/Failed, create the directory for directory-kind specs when
  MakeDirectory= is set (mode = DirectoryMode=, applied exactly), arm the
  watches (arming failure gives Failed/FailureResources), evaluate all specs
  once; any satisfied spec starts the target and enters Running (rejection
  gives Waiting/FailureStart), else Waiting.
- fsEvent while Waiting: re-evaluate the one spec; level-triggered kinds fire
  when satisfied, edge-triggered kinds only when satisfied and the previous
  evaluation was unsatisfied; firing starts the target and enters Running.
- fsEvent while Running: observed only to keep the per-spec state current;
  never a second start.
- targetStopped while Running: re-evaluate all specs; if any level-triggered
  spec is still satisfied, immediately re-issue start and stay Running; else
  go to Waiting clearing the edge latches.
- stop request: disarm everything, stop the target, go to Dead. -/
def path_step (cfg : PathConfig) (s : SysState) (e : PathEvent) : SysState :=
  match e with
  | PathEvent.stopRequest =>
      { s with pstate := PathState.dead, svc := ServiceState.dead,
               prevSat := cfg.specs.map (fun _ => false) }
  | PathEvent.start obs armOk accepted =>
      if s.pstate = PathState.dead ∨ s.pstate = PathState.failed then
        let dir := if cfg.makeDirectory && cfg.specs.any spec_is_dir then
                     some cfg.directoryMode
                   else s.dir
        if armOk then
          let r := eval_all cfg.specs obs (cfg.specs.map (fun _ => initial_spec_mem))
          if r.1.any (fun b => b) then
            if accepted then
              { pstate := PathState.running, presult := PathResult.success,
                svc := ServiceState.running, sresult := s.sresult,
                prevSat := r.1, mem := r.2,
                started := s.started ++ [target_unit cfg], dir := dir }
            else
              { pstate := PathState.waiting, presult := PathResult.failureStart,
                svc := s.svc, sresult := s.sresult,
                prevSat := r.1, mem := r.2, started := s.started, dir := dir }
          else
            { pstate := PathState.waiting, presult := PathResult.success,
              svc := s.svc, sresult := s.sresult,
              prevSat := r.1, mem := r.2, started := s.started, dir := dir }
        else
          { s with pstate := PathState.failed,
                   presult := PathResult.failureResources, dir := dir }
      else s
  | PathEvent.fsEvent i o accepted =>
      if s.pstate = PathState.waiting then
        match cfg.specs.get? i, s.prevSat.get? i, s.mem.get? i with
        | some w, some prev, some m =>
            let r := path_spec_check w.kind o m
            let fire := if path_type_is_level_triggered w.kind then r.1 else r.1 && !prev
            if fire then
              if accepted then
                { s with pstate := PathState.running, svc := ServiceState.running,
                         prevSat := s.prevSat.set i r.1, mem := s.mem.set i r.2,
                         started := s.started ++ [target_unit cfg] }
              else
                { s with presult := PathResult.failureStart,
                         prevSat := s.prevSat.set i r.1, mem := s.mem.set i r.2 }
            else
              { s with prevSat := s.prevSat.set i r.1, mem := s.mem.set i r.2 }
        | _, _, _ => s
      else if s.pstate = PathState.running then
        match cfg.specs.get? i, s.mem.get? i with
        | some w, some m =>
            let r := path_spec_check w.kind o m
            { s with prevSat := s.prevSat.set i r.1, mem := s.mem.set i r.2 }
        | _, _ => s
      else s
  | PathEvent.targetStopped obs svcRes accepted =>
      if s.pstate = PathState.running then
        let r := eval_all cfg.specs obs s.mem
        if (cfg.specs.zip r.1).any (fun p => path_type_is_level_triggered p.1.kind && p.2) then
          if accepted then
            { s with svc := ServiceState.running, sresult := svcRes,
                     prevSat := r.1, mem := r.2,
                     started := s.started ++ [target_unit cfg] }
          else
            { s with pstate := PathState.waiting, presult := PathResult.failureStart,
                     svc := ServiceState.dead, sresult := svcRes,
                     prevSat := cfg.specs.map (fun _ => false), mem := r.2 }
        else
          { s with pstate := PathState.waiting, svc := ServiceState.dead,
                   sresult := svcRes,
                   prevSat := cfg.specs.map (fun _ => false), mem := r.2 }
      else s

/-- Run a sequence of events from a state. -/
def path_run (cfg : PathConfig) (s : SysState) : List PathEvent → SysState
  | [] => s
  | e :: es => path_run cfg (path_step cfg s e) es

/-- An event whose environment answers are all nominal: arming succeeds, start
requests are accepted, the target stops with result success. -/
def event_nominal : PathEvent → Bool
  | PathEvent.start _ armOk accepted => armOk && accepted
  | PathEvent.fsEvent _ _ accepted => accepted
  | PathEvent.targetStopped _ svcRes accepted =>
      accepted && (match svcRes with | ServiceResult.success => true | _ => false)
  | PathEvent.stopRequest => true

/-- A well-formed event delivers one observation per spec (the registry owns
one watch per spec), and names an armed spec. -/
def event_wf (cfg : PathConfig) : PathEvent → Prop
  | PathEvent.start obs _ _ => obs.length = cfg.specs.length
  | PathEvent.fsEvent i _ _ => i < cfg.specs.length
  | PathEvent.targetStopped obs _ _ => obs.length = cfg.specs.length
  | PathEvent.stopRequest => True

/-- Bounded prefix test on character lists (the scan step of strreplace). -/
def chars_start_with : List Char → List Char → Bool
  | [], _ => true
  | _ :: _, [] => false
  | a :: as, b :: bs => a == b && chars_start_with as bs

/-- Fuelled scan of string-util.c's strreplace: replace every occurrence of
old by new, scanning left to right.  The fuel is the length of the text, which
suffices for a non-empty old. -/
def strreplace_go (old new : List Char) : Nat → List Char → List Char
  | 0, s => s
  | Nat.succ _, [] => []
  | Nat.succ fuel, c :: rest =>
      if chars_start_with old (c :: rest) && !old.isEmpty then
        new ++ strreplace_go old new fuel ((c :: rest).drop old.length)
      else
        c :: strreplace_go old new fuel rest

/-- strreplace(text, old, new) as used by test-path.c's service_for_path. -/
def strreplace (text old new : String) : String :=
  String.mk (strreplace_go old.data new.data text.data.length text.data)

/-- test-path.c service_for_path: with no explicit service name, look up the
unit named by replacing ".path" with ".service" in the PathUnit's id;
otherwise look up the named unit. -/
def service_for_path_name (id : String) (service_name : Option String) : String :=
  match service_name with
  | none => strreplace id ".path" ".service"
  | some n => n

/-- An observation of a wholly absent path: stat fails, the glob matches
nothing, no directory. -/
def obs_absent : FsObs :=
  { present := false, globNonEmpty := false, dirNonEmpty := false, mtime := 0 }

/-- Observation after touch created the file (modification time 1). -/
def obs_created : FsObs :=
  { present := true, globNonEmpty := true, dirNonEmpty := false, mtime := 1 }

/-- Observation after the file was rewritten (modification time advanced). -/
def obs_rewritten : FsObs :=
  { present := true, globNonEmpty := true, dirNonEmpty := false, mtime := 2 }

/-- Observation of a directory that exists and holds a real entry. -/
def obs_dir_nonempty : FsObs :=
  { present := true, globNonEmpty := true, dirNonEmpty := true, mtime := 1 }

/-- The PathExists unit of the reference test: path-exists.path watching
/tmp/test-path_exists, no Unit= override, MakeDirectory defaulting to no. -/
def exists_config : PathConfig :=
  { name := "path-exists.path",
    specs := [{ kind := PathType.pathExists, path := "/tmp/test-path_exists" }],
    unitOverride := none, makeDirectory := false, directoryMode := 0o755 }

/-- The PathChanged unit of the reference test. -/
def changed_config : PathConfig :=
  { name := "path-changed.path",
    specs := [{ kind := PathType.pathChanged, path := "/tmp/test-path_changed" }],
    unitOverride := none, makeDirectory := false, directoryMode := 0o755 }

/-- The PathModified unit of the reference test. -/
def modified_config : PathConfig :=
  { name := "path-modified.path",
    specs := [{ kind := PathType.pathModified, path := "/tmp/test-path_modified" }],
    unitOverride := none, makeDirectory := false, directoryMode := 0o755 }

/-- The DirectoryNotEmpty unit of the reference test: MakeDirectory defaults
to no. -/
def directorynotempty_config : PathConfig :=
  { name := "path-directorynotempty.path",
    specs := [{ kind := PathType.directoryNotEmpty,
                path := "/tmp/test-path_directorynotempty/" }],
    unitOverride := none, makeDirectory := false, directoryMode := 0o755 }

/-- The MakeDirectory=yes DirectoryMode=0744 unit of the reference test. -/
def makedirectory_config : PathConfig :=
  { name := "path-makedirectory.path",
    specs := [{ kind := PathType.directoryNotEmpty,
                path := "/tmp/test-path_makedirectory/" }],
    unitOverride := none, makeDirectory := true, directoryMode := 0o744 }

/-- The Unit= override unit of the reference test: path-unit.path activating
path-mycustomunit.service. -/
def unit_config : PathConfig :=
  { name := "path-unit.path",
    specs := [{ kind := PathType.pathExists, path := "/tmp/test-path_unit" }],
    unitOverride := some "path-mycustomunit.service",
    makeDirectory := false, directoryMode := 0o755 }

/-- Raw length of a recovery key in bytes.  Modelled from the spec: the
constant lives in modhex.h, absent from the sources; the value is forced by
make_recovery_key's own comment, "format it as 64 modhex chars" — two chars
per byte. -/
def MODHEX_RAW_LENGTH : Nat := 32

/-- Length of the formatted buffer make_recovery_key allocates: 64 payload
characters in groups of 8, one separator slot per group.  Modelled from the
spec: the constant lives in modhex.h, absent from the sources; the value is
forced by the buffer indices the loop writes. -/
def MODHEX_FORMATTED_LENGTH : Nat := MODHEX_RAW_LENGTH * 2 / 8 * 9

/-- The 16-character modhex alphabet.  Modelled from the spec: the table lives
in modhex.c, absent from the sources. -/
def modhex_alphabet : List Char :=
  ['c', 'b', 'd', 'e', 'f', 'g', 'h', 'i', 'j', 'k', 'l', 'n', 'r', 't', 'u', 'v']

/-- The two characters the loop of make_recovery_key emits for one key byte:
modhex_alphabet[key[i] >> 4] then modhex_alphabet[key[i] & 0xF] — high nibble
first. -/
def encode_byte (b : Nat) : List Char :=
  [modhex_alphabet.getD (b / 16) 'c', modhex_alphabet.getD (b % 16) 'c']

/-- The formatting loop of make_recovery_key (homectl-recovery-key.c:39-45):
for each byte emit its two modhex characters, and after every fourth byte
(i % 4 == 3) emit a dash. -/
def modhex_loop : List Nat → Nat → List Char
  | [], _ => []
  | b :: rest, i =>
      encode_byte b ++ (if i % 4 = 3 then ['-'] else []) ++ modhex_loop rest (i + 1)

/-- make_recovery_key as a function of the random bytes drawn: run the
formatting loop over the 72-slot buffer, then overwrite the final slot
(position MODHEX_FORMATTED_LENGTH-1) with NUL — the returned C string is the
71 characters before that NUL (no earlier slot holds NUL). -/
def make_recovery_key (key : List Nat) : List Char :=
  (modhex_loop key 0).take (MODHEX_FORMATTED_LENGTH - 1)

/-- Spec-side description of the output shape: the raw key taken in groups of
four bytes. -/
def groups_of_four : List Nat → List (List Nat)
  | a :: b :: c :: d :: rest => [a, b, c, d] :: groups_of_four rest
  | [] => []
  | rest => [rest]

/-- Spec-side description: one group of bytes encoded to modhex characters,
two per byte, high nibble first. -/
def encode_group : List Nat → List Char
  | [] => []
  | b :: rest => encode_byte b ++ encode_group rest

/-- Spec-side description: character groups joined with a single dash between
consecutive groups. -/
def dash_intercalate : List (List Char) → List Char
  | [] => []
  | [g] => g
  | g :: gs => g ++ ['-'] ++ dash_intercalate gs

/-- Helper for relating the loop to the grouped form: every group followed by
a dash. -/
def join_dash : List (List Nat) → List Char
  | [] => []
  | g :: gs => encode_group g ++ ['-'] ++ join_dash gs

/-- test_path_exists after unit_start (the file absent). -/
def exists_s1 : SysState :=
  path_step exists_config (path_init exists_config) (PathEvent.start [obs_absent] true true)

/-- test_path_exists after touch created /tmp/test-path_exists. -/
def exists_s2 : SysState :=
  path_step exists_config exists_s1 (PathEvent.fsEvent 0 obs_created true)

/-- test_path_exists after unit_stop on the service while the file still
exists. -/
def exists_s3 : SysState :=
  path_step exists_config exists_s2
    (PathEvent.targetStopped [obs_created] ServiceResult.success true)

/-- test_path_exists after rm_rf removed the file and the service stopped. -/
def exists_s4 : SysState :=
  path_step exists_config exists_s3
    (PathEvent.targetStopped [obs_absent] ServiceResult.success true)

/-- test_path_changed after unit_start (the file absent). -/
def changed_s1 : SysState :=
  path_step changed_config (path_init changed_config) (PathEvent.start [obs_absent] true true)

/-- test_path_changed after touch created /tmp/test-path_changed. -/
def changed_s2 : SysState :=
  path_step changed_config changed_s1 (PathEvent.fsEvent 0 obs_created true)

/-- test_path_changed after unit_stop on the service, the file still existing
unchanged. -/
def changed_s3 : SysState :=
  path_step changed_config changed_s2
    (PathEvent.targetStopped [obs_created] ServiceResult.success true)

/-- test_path_changed after fopen rewrote the file. -/
def changed_s4 : SysState :=
  path_step changed_config changed_s3 (PathEvent.fsEvent 0 obs_rewritten true)

/-- test_path_directorynotempty after unit_start, nothing placed inside the
(absent) directory. -/
def dne_s1 : SysState :=
  path_step directorynotempty_config (path_init directorynotempty_config)
    (PathEvent.start [obs_absent] true true)

/-- test_path_directorynotempty after mkdir_p plus touch put a file inside
the directory. -/
def dne_s2 : SysState :=
  path_step directorynotempty_config dne_s1 (PathEvent.fsEvent 0 obs_dir_nonempty true)

/-- test_path_makedirectory_directorymode after unit_start. -/
def makedirectory_s1 : SysState :=
  path_step makedirectory_config (path_init makedirectory_config)
    (PathEvent.start [obs_absent] true true)

/-- test_path_unit after unit_start (the file absent). -/
def unit_s1 : SysState :=
  path_step unit_config (path_init unit_config) (PathEvent.start [obs_absent] true true)

/-- The nominal event trace of the test_path_exists scenario, used to witness
the result invariant. -/
def exists_trace : List PathEvent :=
  [PathEvent.start [obs_absent] true true,
   PathEvent.fsEvent 0 obs_created true,
   PathEvent.targetStopped [obs_created] ServiceResult.success true,
   PathEvent.targetStopped [obs_absent] ServiceResult.success true,
   PathEvent.stopRequest]

theorem eval_all_fst_length (ws : List WatchSpec) :
    ∀ (os : List FsObs) (ms : List SpecMem),
      os.length = ws.length → ms.length = ws.length →
      (eval_all ws os ms).1.length = ws.length := by
  induction ws with
  | nil => intro os ms _ _; cases os <;> cases ms <;> simp [eval_all]
  | cons w ws ih =>
    intro os ms hos hms
    cases os with
    | nil => simp at hos
    | cons o os =>
      cases ms with
      | nil => simp at hms
      | cons m ms =>
        simp only [eval_all, List.length_cons]
        rw [ih os ms (by simpa using hos) (by simpa using hms)]

theorem eval_all_all_false_of_level (ws : List WatchSpec) :
    ∀ (os : List FsObs) (ms : List SpecMem),
      (∀ w ∈ ws, path_type_is_level_triggered w.kind = true) →
      (ws.zip (eval_all ws os ms).1).any
        (fun p => path_type_is_level_triggered p.1.kind && p.2) = false →
      ∀ b ∈ (eval_all ws os ms).1, b = false := by
  induction ws with
  | nil => intro os ms _ _ b hb; cases os <;> cases ms <;> simp [eval_all] at hb
  | cons w ws ih =>
    intro os ms hall hany b hb
    cases os with
    | nil => simp [eval_all] at hb
    | cons o os =>
      cases ms with
      | nil => simp [eval_all] at hb
      | cons m ms =>
        simp only [eval_all, List.zip_cons_cons, List.any_cons, Bool.or_eq_false_iff,
          Bool.and_eq_false_iff] at hany
        simp only [eval_all, List.mem_cons] at hb
        rcases hb with hb | hb
        · rcases hany.1 with hlev | hsat
          · exact absurd (hall w (by simp)) (by simp [hlev])
          · simpa [hb] using hsat
        · exact ih os ms (fun x hx => hall x (by simp [hx])) hany.2 b hb

theorem zip_any_level_false_of_all_edge (ws : List WatchSpec) :
    ∀ (bs : List Bool),
      (∀ w ∈ ws, path_type_is_level_triggered w.kind = false) →
      (ws.zip bs).any (fun p => path_type_is_level_triggered p.1.kind && p.2) = false := by
  induction ws with
  | nil => intro bs _; simp
  | cons w ws ih =>
    intro bs hall
    cases bs with
    | nil => simp
    | cons b bs =>
      simp only [List.zip_cons_cons, List.any_cons, Bool.or_eq_false_iff]
      refine ⟨?_, ih bs (fun x hx => hall x (by simp [hx]))⟩
      simp [hall w (by simp)]

theorem fsEvent_fire_started
    (cfg : PathConfig) (s : SysState) (i : Nat) (o : FsObs)
    (hw : s.pstate = PathState.waiting)
    (hfire : (path_step cfg s (PathEvent.fsEvent i o true)).pstate = PathState.running) :
    (path_step cfg s (PathEvent.fsEvent i o true)).started
      = s.started ++ [target_unit cfg] := by
  rcases h1 : cfg.specs[i]? with _ | w
  · simp [path_step, hw, h1] at hfire
  · rcases h2 : s.prevSat[i]? with _ | prev
    · simp [path_step, hw, h1, h2] at hfire
    · rcases h3 : s.mem[i]? with _ | m
      · simp [path_step, hw, h1, h2, h3] at hfire
      · cases prev <;>
          rcases hl : path_type_is_level_triggered w.kind <;>
          rcases hs : (path_spec_check w.kind o m).1 <;>
          simp_all [path_step]

/-- C3: PathExists scenario (test_path_exists): after a start request the unit
waits with the target dead; creating the file moves it to Running with the
target active; stopping the target while the file still exists restarts the
target and stays Running; deleting the file and stopping the target moves the
unit back to Waiting with the target dead. -/
theorem path_exists_scenario :
    (exists_s1.pstate = PathState.waiting ∧ exists_s1.svc = ServiceState.dead) ∧
    (exists_s2.pstate = PathState.running ∧ exists_s2.svc = ServiceState.running ∧
      exists_s2.started = ["path-exists.service"]) ∧
    (exists_s3.pstate = PathState.running ∧ exists_s3.svc = ServiceState.running ∧
      exists_s3.started = ["path-exists.service", "path-exists.service"]) ∧
    (exists_s4.pstate = PathState.waiting ∧ exists_s4.svc = ServiceState.dead) := by
  decide

/-- C4: PathChanged scenario (test_path_changed): start yields Waiting;
creating the file yields Running; stopping the target while the file still
exists unchanged yields Waiting with the target dead and no extra start
(distinguishing Changed from Exists); rewriting the file yields Running
again. -/
theorem path_changed_scenario :
    (changed_s1.pstate = PathState.waiting ∧ changed_s1.svc = ServiceState.dead) ∧
    (changed_s2.pstate = PathState.running ∧ changed_s2.svc = ServiceState.running ∧
      changed_s2.started = ["path-changed.service"]) ∧
    (changed_s3.pstate = PathState.waiting ∧ changed_s3.svc = ServiceState.dead ∧
      changed_s3.started = ["path-changed.service"]) ∧
    (changed_s4.pstate = PathState.running ∧ changed_s4.svc = ServiceState.running ∧
      changed_s4.started = ["path-changed.service", "path-changed.service"]) := by
  decide

/-- C5: with MakeDirectory unset (false), a start request never touches the
watched directory — the directory the unit owns stays exactly as it was, in
particular absent in the test_path_directorynotempty scenario both before and
after Start; once a file is placed inside the pre-existing directory the unit
goes to Running. -/
theorem path_directorynotempty_no_makedirectory
    (cfg : PathConfig) (s : SysState) (obs : List FsObs) (armOk accepted : Bool)
    (h : cfg.makeDirectory = false) :
    (path_step cfg s (PathEvent.start obs armOk accepted)).dir = s.dir ∧
    ((path_init directorynotempty_config).dir = none ∧
      dne_s1.dir = none ∧ dne_s1.pstate = PathState.waiting ∧
      dne_s2.pstate = PathState.running ∧ dne_s2.svc = ServiceState.running) := by
  constructor
  · simp only [path_step, h]
    split
    · cases armOk <;> cases accepted <;>
        simp_all <;> split <;> rfl
    · rfl
  · decide

/-- C6: after a start request on the MakeDirectory=yes DirectoryMode=0744
unit, the watched directory exists with permission bits exactly 0744 — owner
rwx 0700, group 0040, other 0004 — and masking 0744 with the complement of
the umask 022 the test sets leaves it unchanged, so the configured mode is
what is observed. -/
theorem path_makedirectory_directorymode :
    makedirectory_s1.dir = some 0o744 ∧
    makedirectory_s1.pstate = PathState.waiting ∧
    0o744 &&& 0o700 = 0o700 ∧ 0o744 &&& 0o070 = 0o040 ∧ 0o744 &&& 0o007 = 0o004 ∧
    0o744 &&& (0o777 ^^^ 0o022) = 0o744 := by
  decide

/-- C7: for a PathUnit with no explicit Unit= override, the unit started when
a condition becomes satisfied is exactly the one derived from the PathUnit's
own name by replacing the ".path" suffix with ".service"; the test helper
service_for_path resolves the same name via strreplace. -/
theorem path_default_target_derivation
    (cfg : PathConfig) (s : SysState) (i : Nat) (o : FsObs)
    (hover : cfg.unitOverride = none)
    (hw : s.pstate = PathState.waiting)
    (hfire : (path_step cfg s (PathEvent.fsEvent i o true)).pstate = PathState.running) :
    (path_step cfg s (PathEvent.fsEvent i o true)).started
      = s.started ++ [derive_target_name cfg.name] ∧
    service_for_path_name "path-exists.path" none = derive_target_name "path-exists.path" := by
  refine ⟨?_, by decide⟩
  have h := fsEvent_fire_started cfg s i o hw hfire
  rw [h]
  simp [target_unit, hover]

/-- C8: with an explicit Unit= override the unit started on condition
satisfaction is the named unit — for path-unit.path that is
path-mycustomunit.service, which differs from the name derived from the
PathUnit's own name. -/
theorem path_explicit_unit_override
    (cfg : PathConfig) (s : SysState) (i : Nat) (o : FsObs) (u : String)
    (hover : cfg.unitOverride = some u)
    (hw : s.pstate = PathState.waiting)
    (hfire : (path_step cfg s (PathEvent.fsEvent i o true)).pstate = PathState.running) :
    (path_step cfg s (PathEvent.fsEvent i o true)).started = s.started ++ [u] ∧
    unit_config.unitOverride = some "path-mycustomunit.service" ∧
    "path-mycustomunit.service" ≠ derive_target_name "path-unit.path" := by
  refine ⟨?_, by decide, by decide⟩
  have h := fsEvent_fire_started cfg s i o hw hfire
  rw [h]
  simp [target_unit, hover]

/-- C1: for a PathUnit all of whose specs are level-triggered (Exists,
ExistsGlob, DirectoryNotEmpty), if the target reports terminal stop while
some condition still holds, the unit re-issues start and remains Running;
and no nominal event moves it from Running to Waiting unless it is a target
stop whose re-evaluation observed every condition false. -/
theorem path_level_triggered_restart_invariant
    (cfg : PathConfig) (s : SysState)
    (hall : ∀ w ∈ cfg.specs, path_type_is_level_triggered w.kind = true)
    (hrun : s.pstate = PathState.running)
    (hmem : s.mem.length = cfg.specs.length) :
    (∀ obs : List FsObs,
        (cfg.specs.zip (eval_all cfg.specs obs s.mem).1).any
          (fun p => path_type_is_level_triggered p.1.kind && p.2) = true →
        (path_step cfg s (PathEvent.targetStopped obs ServiceResult.success true)).pstate
            = PathState.running ∧
        (path_step cfg s (PathEvent.targetStopped obs ServiceResult.success true)).started
            = s.started ++ [target_unit cfg]) ∧
    (∀ e : PathEvent, event_nominal e = true → event_wf cfg e →
        (path_step cfg s e).pstate = PathState.waiting →
        ∃ obs : List FsObs, e = PathEvent.targetStopped obs ServiceResult.success true ∧
          (eval_all cfg.specs obs s.mem).1.length = cfg.specs.length ∧
          ∀ b ∈ (eval_all cfg.specs obs s.mem).1, b = false) := by
  constructor
  · intro obs hsat
    have hstep : path_step cfg s (PathEvent.targetStopped obs ServiceResult.success true)
        = { s with svc := ServiceState.running, sresult := ServiceResult.success,
                   prevSat := (eval_all cfg.specs obs s.mem).1,
                   mem := (eval_all cfg.specs obs s.mem).2,
                   started := s.started ++ [target_unit cfg] } := by
      simp only [path_step]
      rw [if_pos hrun, if_pos hsat, if_pos trivial]
    rw [hstep]
    exact ⟨hrun, rfl⟩
  · intro e hnom hwf hwait
    cases e with
    | start obs armOk accepted =>
        simp [path_step, hrun] at hwait
    | stopRequest =>
        simp [path_step] at hwait
    | fsEvent i o accepted =>
        rcases h1 : cfg.specs[i]? with _ | w
        · simp [path_step, hrun, h1] at hwait
        · rcases h3 : s.mem[i]? with _ | m
          · simp [path_step, hrun, h1, h3] at hwait
          · simp [path_step, hrun, h1, h3] at hwait
    | targetStopped obs svcRes accepted =>
        cases accepted with
        | false => simp [event_nominal] at hnom
        | true =>
          cases svcRes with
          | failure => simp [event_nominal] at hnom
          | success =>
            refine ⟨obs, rfl, ?_, ?_⟩
            · exact eval_all_fst_length cfg.specs obs s.mem hwf hmem
            · by_cases hz :
                (cfg.specs.zip (eval_all cfg.specs obs s.mem).1).any
                  (fun p => path_type_is_level_triggered p.1.kind && p.2) = true
              · exfalso
                have hstep : path_step cfg s
                      (PathEvent.targetStopped obs ServiceResult.success true)
                    = { s with svc := ServiceState.running, sresult := ServiceResult.success,
                               prevSat := (eval_all cfg.specs obs s.mem).1,
                               mem := (eval_all cfg.specs obs s.mem).2,
                               started := s.started ++ [target_unit cfg] } := by
                  simp only [path_step]
                  rw [if_pos hrun, if_pos hz, if_pos trivial]
                rw [hstep] at hwait
                rw [hrun] at hwait
                exact PathState.noConfusion hwait
              · exact eval_all_all_false_of_level cfg.specs obs s.mem hall
                  (Bool.not_eq_true _ ▸ Bool.of_not_eq_true hz)

/-- C1 witness: the PathExists unit in Running with the file still present —
the target stop re-issues start and the unit stays Running. -/
theorem path_level_triggered_restart_invariant_witness :
    exists_config.specs.all (fun w => path_type_is_level_triggered w.kind) = true ∧
    exists_s2.pstate = PathState.running ∧
    exists_s2.mem.length = exists_config.specs.length ∧
    ((path_step exists_config exists_s2
        (PathEvent.targetStopped [obs_created] ServiceResult.success true)).pstate
          = PathState.running ∧
      (path_step exists_config exists_s2
        (PathEvent.targetStopped [obs_created] ServiceResult.success true)).started
          = exists_s2.started ++ [target_unit exists_config]) :=
  ⟨by decide, by decide, by decide,
    (path_level_triggered_restart_invariant exists_config exists_s2
      (by decide) (by decide) (by decide)).1 [obs_created] (by decide)⟩

/-- C2: for a PathUnit all of whose specs are edge-triggered (Changed,
Modified): a firing event from Waiting issues exactly one start; a satisfied
evaluation whose previous evaluation was already satisfied does not fire;
events while Running never issue a second start; and a target stop with the
condition merely still true moves the unit to Waiting without restarting. -/
theorem path_edge_triggered_single_start
    (cfg : PathConfig)
    (hall : ∀ w ∈ cfg.specs, path_type_is_level_triggered w.kind = false) :
    (∀ (s : SysState) (i : Nat) (o : FsObs), s.pstate = PathState.waiting →
        (path_step cfg s (PathEvent.fsEvent i o true)).pstate = PathState.running →
        (path_step cfg s (PathEvent.fsEvent i o true)).started
          = s.started ++ [target_unit cfg]) ∧
    (∀ (s : SysState) (i : Nat) (o : FsObs), s.pstate = PathState.waiting →
        s.prevSat[i]? = some true →
        (path_step cfg s (PathEvent.fsEvent i o true)).pstate = PathState.waiting ∧
        (path_step cfg s (PathEvent.fsEvent i o true)).started = s.started) ∧
    (∀ (s : SysState) (i : Nat) (o : FsObs) (a : Bool), s.pstate = PathState.running →
        (path_step cfg s (PathEvent.fsEvent i o a)).pstate = PathState.running ∧
        (path_step cfg s (PathEvent.fsEvent i o a)).started = s.started) ∧
    (∀ (s : SysState) (obs : List FsObs), s.pstate = PathState.running →
        (path_step cfg s (PathEvent.targetStopped obs ServiceResult.success true)).pstate
          = PathState.waiting ∧
        (path_step cfg s (PathEvent.targetStopped obs ServiceResult.success true)).started
          = s.started) := by
  refine ⟨?_, ?_, ?_, ?_⟩
  · intro s i o hw hfire
    exact fsEvent_fire_started cfg s i o hw hfire
  · intro s i o hw hprev
    rcases h1 : cfg.specs[i]? with _ | w
    · constructor <;> simp [path_step, hw, h1]
    · have hmemw : w ∈ cfg.specs := by
        have hlt : i < cfg.specs.length := by
          by_contra hge
          simp [List.getElem?_eq_none (Nat.le_of_not_lt hge)] at h1
        have : cfg.specs[i] = w := by
          have := List.getElem?_eq_getElem hlt
          rw [h1] at this
          exact (Option.some.injEq _ _ ▸ this).symm
        exact this ▸ cfg.specs.getElem_mem hlt
      have hedge := hall w hmemw
      rcases h3 : s.mem[i]? with _ | m
      · constructor <;> simp [path_step, hw, h1, hprev, h3]
      · constructor <;>
          simp [path_step, hw, h1, hprev, h3, hedge]
  · intro s i o a hr
    rcases h1 : cfg.specs[i]? with _ | w <;>
      rcases h3 : s.mem[i]? with _ | m <;>
      constructor <;>
      simp [path_step, hr, h1, h3]
  · intro s obs hr
    have hz := zip_any_level_false_of_all_edge cfg.specs (eval_all cfg.specs obs s.mem).1 hall
    have hstep : path_step cfg s (PathEvent.targetStopped obs ServiceResult.success true)
        = { s with pstate := PathState.waiting, svc := ServiceState.dead,
                   sresult := ServiceResult.success,
                   prevSat := cfg.specs.map (fun _ => false),
                   mem := (eval_all cfg.specs obs s.mem).2 } := by
      simp only [path_step]
      rw [if_pos hr, if_neg (by simp [hz])]
    rw [hstep]
    exact ⟨rfl, rfl⟩

/-- C2 witness: the PathChanged unit — a creation event from Waiting issues
exactly one start, and stopping the target with the file merely still present
moves the unit to Waiting with no further start. -/
theorem path_edge_triggered_single_start_witness :
    changed_config.specs.all (fun w => !path_type_is_level_triggered w.kind) = true ∧
    changed_s1.pstate = PathState.waiting ∧
    (path_step changed_config changed_s1 (PathEvent.fsEvent 0 obs_created true)).pstate
      = PathState.running ∧
    (path_step changed_config changed_s1 (PathEvent.fsEvent 0 obs_created true)).started
      = changed_s1.started ++ [target_unit changed_config] ∧
    changed_s2.pstate = PathState.running ∧
    ((path_step changed_config changed_s2
        (PathEvent.targetStopped [obs_created] ServiceResult.success true)).pstate
          = PathState.waiting ∧
      (path_step changed_config changed_s2
        (PathEvent.targetStopped [obs_created] ServiceResult.success true)).started
          = changed_s2.started) :=
  ⟨by decide, by decide, by decide,
    (path_edge_triggered_single_start changed_config (by decide)).1
      changed_s1 0 obs_created (by decide) (by decide),
    by decide,
    (path_edge_triggered_single_start changed_config (by decide)).2.2.2
      changed_s2 [obs_created] (by decide)⟩

theorem fsEvent_step_results
    (cfg : PathConfig) (s : SysState) (i : Nat) (o : FsObs) :
    (path_step cfg s (PathEvent.fsEvent i o true)).presult = s.presult ∧
    (path_step cfg s (PathEvent.fsEvent i o true)).sresult = s.sresult := by
  rcases hps : s.pstate <;>
    rcases h1 : cfg.specs[i]? with _ | w <;>
    rcases h2 : s.prevSat[i]? with _ | prev <;>
    rcases h3 : s.mem[i]? with _ | m <;>
    constructor <;>
    simp [path_step, hps, h1, h2, h3] <;>
    split <;>
    simp_all <;>
    (try split) <;>
    simp_all

theorem nominal_step_results
    (cfg : PathConfig) (s : SysState) (e : PathEvent)
    (hnom : event_nominal e = true)
    (hp : s.presult = PathResult.success)
    (hs : s.sresult = ServiceResult.success) :
    (path_step cfg s e).presult = PathResult.success ∧
    (path_step cfg s e).sresult = ServiceResult.success := by
  cases e with
  | stopRequest => exact ⟨hp, hs⟩
  | start obs armOk accepted =>
      cases armOk with
      | false => simp [event_nominal] at hnom
      | true =>
        cases accepted with
        | false => simp [event_nominal] at hnom
        | true =>
          simp only [path_step]
          split
          · refine ⟨?_, ?_⟩ <;> split <;> simp_all <;> (try split) <;> simp_all
          · exact ⟨hp, hs⟩
  | fsEvent i o accepted =>
      cases accepted with
      | false => simp [event_nominal] at hnom
      | true =>
        have h := fsEvent_step_results cfg s i o
        exact ⟨h.1.trans hp, h.2.trans hs⟩
  | targetStopped obs svcRes accepted =>
      cases accepted with
      | false => simp [event_nominal] at hnom
      | true =>
        cases svcRes with
        | failure => simp [event_nominal] at hnom
        | success =>
          simp only [path_step]
          split
          · refine ⟨?_, ?_⟩ <;> split <;> simp_all
          · exact ⟨hp, hs⟩

theorem path_run_nominal_results (cfg : PathConfig) :
    ∀ (evs : List PathEvent) (s : SysState),
      (∀ e ∈ evs, event_nominal e = true) →
      s.presult = PathResult.success → s.sresult = ServiceResult.success →
      (path_run cfg s evs).presult = PathResult.success ∧
      (path_run cfg s evs).sresult = ServiceResult.success
  | [], _, _, hp, hs => ⟨hp, hs⟩
  | e :: es, s, hnom, hp, hs => by
      have h1 := nominal_step_results cfg s e (hnom e (by simp)) hp hs
      exact path_run_nominal_results cfg es (path_step cfg s e)
        (fun x hx => hnom x (by simp [hx])) h1.1 h1.2

/-- C9: along any run of nominal events (arming succeeds, starts accepted,
the target stops with success) from a freshly loaded unit, the path result
stays PATH_SUCCESS and the service result stays SERVICE_SUCCESS — the sticky
results the test requires at every checkpoint are never set to a failure. -/
theorem path_nominal_results_success
    (cfg : PathConfig) (evs : List PathEvent)
    (hnom : ∀ e ∈ evs, event_nominal e = true) :
    (path_run cfg (path_init cfg) evs).presult = PathResult.success ∧
    (path_run cfg (path_init cfg) evs).sresult = ServiceResult.success :=
  path_run_nominal_results cfg evs (path_init cfg) hnom rfl rfl

/-- C9 witness: the full nominal PathExists scenario trace keeps both results
at success. -/
theorem path_nominal_results_success_witness :
    exists_trace.all event_nominal = true ∧
    ((path_run exists_config (path_init exists_config) exists_trace).presult
        = PathResult.success ∧
      (path_run exists_config (path_init exists_config) exists_trace).sresult
        = ServiceResult.success) :=
  ⟨by decide, path_nominal_results_success exists_config exists_trace (by decide)⟩

theorem modhex_loop_step (a b c d : Nat) (rest : List Nat) (i : Nat) (hi : i % 4 = 0) :
    modhex_loop (a :: b :: c :: d :: rest) i
      = encode_byte a ++ encode_byte b ++ encode_byte c ++ encode_byte d ++ ['-']
        ++ modhex_loop rest (i + 4) := by
  have h0 : ¬ (i % 4 = 3) := by omega
  have h1 : ¬ ((i + 1) % 4 = 3) := by omega
  have h2 : ¬ ((i + 2) % 4 = 3) := by omega
  have h3 : (i + 3) % 4 = 3 := by omega
  have h4 : i + 1 + 1 + 1 + 1 = i + 4 := by omega
  simp [modhex_loop, h0, h1, h2, h3, h4, List.append_assoc]

theorem modhex_loop_groups :
    ∀ (l : List Nat) (i : Nat), i % 4 = 0 → l.length % 4 = 0 →
      modhex_loop l i = join_dash (groups_of_four l)
  | [], _, _, _ => by simp [modhex_loop, groups_of_four, join_dash]
  | [_], _, _, hl => by simp at hl
  | [_, _], _, _, hl => by simp at hl
  | [_, _, _], _, _, hl => by simp at hl
  | a :: b :: c :: d :: rest, i, hi, hl => by
      have hrest : rest.length % 4 = 0 := by
        simp only [List.length_cons] at hl
        omega
      have ih := modhex_loop_groups rest (i + 4) (by omega) hrest
      rw [modhex_loop_step a b c d rest i hi, ih]
      simp [groups_of_four, join_dash, encode_group, List.append_assoc]

theorem groups_of_four_length :
    ∀ l : List Nat, l.length % 4 = 0 → (groups_of_four l).length = l.length / 4
  | [], _ => by simp [groups_of_four]
  | [_], hl => by simp at hl
  | [_, _], hl => by simp at hl
  | [_, _, _], hl => by simp at hl
  | a :: b :: c :: d :: rest, hl => by
      have hrest : rest.length % 4 = 0 := by
        simp only [List.length_cons] at hl
        omega
      have ih := groups_of_four_length rest hrest
      simp only [groups_of_four, List.length_cons, ih]
      omega

theorem groups_of_four_mem_length :
    ∀ l : List Nat, l.length % 4 = 0 → ∀ g ∈ groups_of_four l, g.length = 4
  | [], _ => by simp [groups_of_four]
  | [_], hl => by simp at hl
  | [_, _], hl => by simp at hl
  | [_, _, _], hl => by simp at hl
  | a :: b :: c :: d :: rest, hl => by
      have hrest : rest.length % 4 = 0 := by
        simp only [List.length_cons] at hl
        omega
      intro g hg
      simp only [groups_of_four, List.mem_cons] at hg
      rcases hg with rfl | hg
      · rfl
      · exact groups_of_four_mem_length rest hrest g hg

theorem groups_of_four_subset :
    ∀ (l : List Nat) (g : List Nat), g ∈ groups_of_four l → ∀ b ∈ g, b ∈ l
  | [], g, hg => by simp [groups_of_four] at hg
  | [a], g, hg => by
      simp only [groups_of_four, List.mem_singleton] at hg
      subst hg
      exact fun b hb => hb
  | [a, b], g, hg => by
      simp only [groups_of_four, List.mem_singleton] at hg
      subst hg
      exact fun x hx => hx
  | [a, b, c], g, hg => by
      simp only [groups_of_four, List.mem_singleton] at hg
      subst hg
      exact fun x hx => hx
  | a :: b :: c :: d :: rest, g, hg => by
      intro x hx
      simp only [groups_of_four, List.mem_cons] at hg
      rcases hg with rfl | hg
      · simp only [List.mem_cons] at hx ⊢
        tauto
      · have := groups_of_four_subset rest g hg x hx
        simp only [List.mem_cons]
        tauto

theorem encode_group_length : ∀ g : List Nat, (encode_group g).length = 2 * g.length
  | [] => rfl
  | b :: rest => by
      simp only [encode_group, encode_byte, List.length_append, List.length_cons,
        List.length_nil, encode_group_length rest]
      omega

theorem modhex_getD_mem :
    ∀ x : Nat, x < 16 →
      modhex_alphabet.getD x 'c' ∈ modhex_alphabet ∧ modhex_alphabet.getD x 'c' ≠ '-' := by
  decide

theorem encode_byte_mem (b : Nat) (hb : b < 256) :
    ∀ c ∈ encode_byte b, c ∈ modhex_alphabet ∧ c ≠ '-' := by
  have h1 := modhex_getD_mem (b / 16) (by omega)
  have h2 := modhex_getD_mem (b % 16) (by omega)
  intro c hc
  simp only [encode_byte, List.mem_cons, List.not_mem_nil, or_false] at hc
  rcases hc with rfl | rfl
  · exact h1
  · exact h2

theorem encode_group_mem :
    ∀ g : List Nat, (∀ b ∈ g, b < 256) →
      ∀ c ∈ encode_group g, c ∈ modhex_alphabet ∧ c ≠ '-'
  | [], _ => by simp [encode_group]
  | b :: rest, hb => by
      intro c hc
      simp only [encode_group, List.mem_append] at hc
      rcases hc with hc | hc
      · exact encode_byte_mem b (hb b (by simp)) c hc
      · exact encode_group_mem rest (fun x hx => hb x (by simp [hx])) c hc

theorem join_dash_eq :
    ∀ gs : List (List Nat), gs ≠ [] →
      join_dash gs = dash_intercalate (gs.map encode_group) ++ ['-']
  | [], h => absurd rfl h
  | [g], _ => by simp [join_dash, dash_intercalate]
  | g :: g2 :: gs, _ => by
      rw [show join_dash (g :: g2 :: gs)
            = encode_group g ++ ['-'] ++ join_dash (g2 :: gs) from rfl,
          join_dash_eq (g2 :: gs) (by simp)]
      simp [dash_intercalate, List.append_assoc]

theorem dash_intercalate_length :
    ∀ gs : List (List Char), gs ≠ [] → (∀ g ∈ gs, g.length = 8) →
      (dash_intercalate gs).length = 9 * gs.length - 1
  | [], h, _ => absurd rfl h
  | [g], _, h8 => by simp [dash_intercalate, h8 g (by simp)]
  | g :: g2 :: gs, _, h8 => by
      have ih := dash_intercalate_length (g2 :: gs) (by simp)
        (fun x hx => h8 x (by simp [hx]))
      rw [show dash_intercalate (g :: g2 :: gs)
            = g ++ ['-'] ++ dash_intercalate (g2 :: gs) from rfl]
      simp only [List.length_append, List.length_cons, List.length_nil, ih,
        h8 g (by simp)]
      omega

theorem join_dash_length :
    ∀ gs : List (List Nat), (∀ g ∈ gs, g.length = 4) →
      (join_dash gs).length = 9 * gs.length
  | [], _ => by simp [join_dash]
  | g :: gs, h4 => by
      have ih := join_dash_length gs (fun x hx => h4 x (by simp [hx]))
      simp only [join_dash, List.length_append, List.length_cons, List.length_nil,
        encode_group_length, h4 g (by simp), ih]
      omega

theorem getD_append_last (xs : List Char) :
    (xs ++ ['-']).getD xs.length ' ' = '-' := by
  induction xs with
  | nil => rfl
  | cons x xs ih =>
      simp only [List.length_cons, List.cons_append, List.getD_cons_succ]
      exact ih

theorem take_length_append (xs ys : List Char) : (xs ++ ys).take xs.length = xs := by
  induction xs with
  | nil => rfl
  | cons x xs ih => simp [List.take_succ_cons, ih]

/-- C10: on success make_recovery_key returns the NUL-terminated string of
exactly MODHEX_FORMATTED_LENGTH - 1 = 71 characters: the eight groups of
eight modhex characters (two per random byte, high nibble first, each drawn
from the modhex alphabet, never a dash) joined by single dashes; the raw
72-slot buffer ends in the dash written after the final fourth byte, and
that final slot is the one the terminating NUL overwrites. -/
theorem make_recovery_key_format (key : List Nat)
    (hlen : key.length = MODHEX_RAW_LENGTH)
    (hbytes : ∀ b ∈ key, b < 256) :
    make_recovery_key key
        = dash_intercalate ((groups_of_four key).map encode_group) ∧
    (make_recovery_key key).length = MODHEX_FORMATTED_LENGTH - 1 ∧
    (groups_of_four key).length = 8 ∧
    (∀ g ∈ (groups_of_four key).map encode_group,
        g.length = 8 ∧ ∀ c ∈ g, c ∈ modhex_alphabet ∧ c ≠ '-') ∧
    (modhex_loop key 0).length = MODHEX_FORMATTED_LENGTH ∧
    (modhex_loop key 0).getD (MODHEX_FORMATTED_LENGTH - 1) ' ' = '-' := by
  have h4 : key.length % 4 = 0 := by rw [hlen]; decide
  have hloop : modhex_loop key 0 = join_dash (groups_of_four key) :=
    modhex_loop_groups key 0 (by decide) h4
  have hglen8 : (groups_of_four key).length = 8 := by
    rw [groups_of_four_length key h4, hlen]
    decide
  have hgs4 := groups_of_four_mem_length key h4
  have hne : groups_of_four key ≠ [] := by
    intro h
    rw [h] at hglen8
    simp at hglen8
  have hjoin := join_dash_eq (groups_of_four key) hne
  have hmap8 : ∀ g ∈ (groups_of_four key).map encode_group, g.length = 8 := by
    intro g hg
    obtain ⟨g0, hg0, rfl⟩ := List.mem_map.mp hg
    rw [encode_group_length g0, hgs4 g0 hg0]
  have hmapne : (groups_of_four key).map encode_group ≠ [] := by
    simpa using hne
  have hdlen : (dash_intercalate ((groups_of_four key).map encode_group)).length = 71 := by
    rw [dash_intercalate_length _ hmapne hmap8, List.length_map, hglen8]
  have hlooplen : (modhex_loop key 0).length = 72 := by
    rw [hloop, join_dash_length _ hgs4, hglen8]
  have hkey_eq : make_recovery_key key
      = dash_intercalate ((groups_of_four key).map encode_group) := by
    unfold make_recovery_key
    rw [hloop, hjoin,
        show MODHEX_FORMATTED_LENGTH - 1
          = (dash_intercalate ((groups_of_four key).map encode_group)).length from by
            rw [hdlen]
            decide]
    exact take_length_append _ _
  refine ⟨hkey_eq, ?_, hglen8, ?_, by rw [hlooplen]; decide, ?_⟩
  · rw [hkey_eq, hdlen]
    decide
  · intro g hg
    refine ⟨hmap8 g hg, ?_⟩
    obtain ⟨g0, hg0, rfl⟩ := List.mem_map.mp hg
    exact encode_group_mem g0
      (fun b hb => hbytes b (groups_of_four_subset key g0 hg0 b hb))
  · rw [hloop, hjoin,
        show MODHEX_FORMATTED_LENGTH - 1
          = (dash_intercalate ((groups_of_four key).map encode_group)).length from by
            rw [hdlen]
            decide]
    exact getD_append_last _

/-- C10 witness: the all-zero 32-byte key — the formatted output matches the
grouped form, is 71 characters long, and the overwritten final buffer slot
held a dash. -/
theorem make_recovery_key_format_witness :
    (List.replicate 32 0).length = MODHEX_RAW_LENGTH ∧
    (List.replicate 32 0).all (fun b => decide (b < 256)) = true ∧
    make_recovery_key (List.replicate 32 0)
      = dash_intercalate ((groups_of_four (List.replicate 32 0)).map encode_group) ∧
    (make_recovery_key (List.replicate 32 0)).length = MODHEX_FORMATTED_LENGTH - 1 ∧
    (modhex_loop (List.replicate 32 0) 0).getD (MODHEX_FORMATTED_LENGTH - 1) ' ' = '-' :=
  ⟨by decide, by decide,
   (make_recovery_key_format (List.replicate 32 0) (by decide) (by decide)).1,
   (make_recovery_key_format (List.replicate 32 0) (by decide) (by decide)).2.1,
   (make_recovery_key_format (List.replicate 32 0) (by decide) (by decide)).2.2.2.2.2⟩

/-- C5 witness: the DirectoryNotEmpty unit with MakeDirectory defaulted to
no — a concrete start request leaves the absent directory absent. -/
theorem path_directorynotempty_no_makedirectory_witness :
    directorynotempty_config.makeDirectory = false ∧
    ((path_step directorynotempty_config (path_init directorynotempty_config)
        (PathEvent.start [obs_absent] true true)).dir
          = (path_init directorynotempty_config).dir ∧
      ((path_init directorynotempty_config).dir = none ∧
        dne_s1.dir = none ∧ dne_s1.pstate = PathState.waiting ∧
        dne_s2.pstate = PathState.running ∧ dne_s2.svc = ServiceState.running)) :=
  ⟨by decide,
    path_directorynotempty_no_makedirectory directorynotempty_config
      (path_init directorynotempty_config) [obs_absent] true true (by decide)⟩

/-- C7 witness: the PathExists unit in Waiting, fired by the creation event —
the start goes to the name derived by suffix replacement. -/
theorem path_default_target_derivation_witness :
    exists_config.unitOverride = none ∧
    exists_s1.pstate = PathState.waiting ∧
    (path_step exists_config exists_s1 (PathEvent.fsEvent 0 obs_created true)).pstate
      = PathState.running ∧
    ((path_step exists_config exists_s1 (PathEvent.fsEvent 0 obs_created true)).started
        = exists_s1.started ++ [derive_target_name exists_config.name] ∧
      service_for_path_name "path-exists.path" none
        = derive_target_name "path-exists.path") :=
  ⟨by decide, by decide, by decide,
    path_default_target_derivation exists_config exists_s1 0 obs_created
      (by decide) (by decide) (by decide)⟩

/-- C8 witness: the Unit= override unit in Waiting, fired by the creation
event — the start goes to path-mycustomunit.service. -/
theorem path_explicit_unit_override_witness :
    unit_config.unitOverride = some "path-mycustomunit.service" ∧
    unit_s1.pstate = PathState.waiting ∧
    (path_step unit_config unit_s1 (PathEvent.fsEvent 0 obs_created true)).pstate
      = PathState.running ∧
    ((path_step unit_config unit_s1 (PathEvent.fsEvent 0 obs_created true)).started
        = unit_s1.started ++ ["path-mycustomunit.service"] ∧
      unit_config.unitOverride = some "path-mycustomunit.service" ∧
      "path-mycustomunit.service" ≠ derive_target_name "path-unit.path") :=
  ⟨by decide, by decide, by decide,
    path_explicit_unit_override unit_config unit_s1 0 obs_created
      "path-mycustomunit.service" (by decide) (by decide) (by decide)⟩
